import Mathlib

/-!
# prometheus-config-reloader: `cmd/prometheus-config-reloader/main.go`

A shallow embedding of the command's `main` and `createOrdinalEnvvar`.

* Go strings are modelled by `String`, the `error` interface by `Option String`
  (`none` is `nil`).
* The process environment is a finite map seen as a function from names to
  optional values; `Getenv` and `Setenv` follow Go's `os` package on Unix.
* The compiled pattern `\d+$` is a value of a small regular-expression syntax,
  matched by a backtracking matcher with Go's leftmost-first preference order.
* `main` is a function from its inputs (arguments, environment, what happens
  while the run group is blocked) to the list of effects it performs, in order.
-/

namespace ConfigReloader

/-! ## Constants of the source -/

def logFormatLogfmt : String := "logfmt"
def logFormatJson : String := "json"
def statefulsetOrdinalEnvvar : String := "STATEFULSET_ORDINAL_NUMBER"
def statefulsetOrdinalFromEnvvarDefault : String := "POD_NAME"

def availableLogFormats : List String := [logFormatLogfmt, logFormatJson]

/-! ## Process state: environment and effects -/

/-- The process environment: `none` for a variable that is not set. -/
abbrev Env := String → Option String

/-- The environment with no variable set. -/
def Env.empty : Env := fun _ => none

/-- The environment `env` with `key` bound to `value`. -/
def Env.set (env : Env) (key value : String) : Env :=
  fun k => if k = key then some value else env k

/-- The two loggers `main` chooses between. -/
inductive LogFormat where
  | logfmt
  | json
  deriving DecidableEq, Repr

/-- The effects of the process that can be observed from outside, one constructor per
call in the source. -/
inductive Event where
  /-- A line written by `fmt.Fprintln(os.Stderr, err)`. -/
  | stderr (line : String)
  /-- The usage text that the flag library prints for `--help`. -/
  | usage
  /-- The call `logger.Log("msg", msg)` on the logger of the given format. -/
  | log (format : LogFormat) (msg : String)
  /-- A write of `value` to the variable `key` of the process environment. -/
  | setenv (key value : String)
  /-- The call `reloader.New(logger, reloadURL, cfgFile, cfgSubstFile, ruleDirs)`. -/
  | newReloader (reloadURL cfgFile cfgSubstFile : String) (ruleDirs : List String)
  /-- The run group starts its actor: `rel.Watch(ctx)` is called. -/
  | watch
  /-- The call `rel.Watch(ctx)` returned `err`. -/
  | watchReturned (err : Option String)
  /-- The call `cancel()` on the context given to `rel.Watch`. -/
  | cancel
  deriving DecidableEq, Repr

/-- The state of the process: its environment and the effects so far, oldest first. -/
structure Proc where
  env : Env
  trace : List Event

/-- Record one effect. -/
def Proc.emit (p : Proc) (e : Event) : Proc :=
  { p with trace := p.trace ++ [e] }

/-- Go `os.Getenv`: the value of `key`, the empty string when `key` is empty or not set. -/
def Getenv (p : Proc) (key : String) : String :=
  if key = "" then "" else (p.env key).getD ""

/-- The NUL character. -/
def nul : Char := Char.ofNat 0

/-- Go `os.Setenv` on Unix: `EINVAL` for an empty key, a key holding `=` or NUL, or a
value holding NUL; otherwise `key` is bound to `value` and nothing else changes. -/
def Setenv (key value : String) (p : Proc) : Option String × Proc :=
  if key = "" then (some "invalid argument", p)
  else if key.data.any (fun c => c == '=' || c == nul) then (some "invalid argument", p)
  else if value.data.any (fun c => c == nul) then (some "invalid argument", p)
  else (none, { env := p.env.set key value, trace := p.trace ++ [Event.setenv key value] })

/-! ## Regular expressions (`regexp.MustCompile`, `FindString`) -/

/-- The part of Go's regular-expression syntax that the source uses. -/
inductive Regexp where
  /-- The Perl class `\d`, which in Go is `[0-9]`. -/
  | digit : Regexp
  /-- The greedy `r+`. -/
  | plus : Regexp → Regexp
  /-- The anchor `$` without the multi-line flag: end of text. -/
  | endText : Regexp
  /-- Concatenation. -/
  | concat : Regexp → Regexp → Regexp

/-- Membership in `[0-9]`. -/
def isDigit (c : Char) : Bool := decide (48 ≤ c.toNat) && decide (c.toNat ≤ 57)

/-- Greedy iteration of `step`, at most `fuel` times and at least once: the remainders
after more iterations come before those after fewer. -/
def plusIter (step : List Char → List (List Char)) : Nat → List Char → List (List Char)
  | 0, _ => []
  | fuel + 1, s => (step s).flatMap (fun rest => plusIter step fuel rest ++ [rest])

/-- All ways of matching `re` at the start of `s`, as the text left over after the match,
in the order a backtracking matcher tries them (Go's leftmost-first preference). An
iteration is tried at most once per character of `s`. -/
def matchAll : Regexp → List Char → List (List Char)
  | .digit, [] => []
  | .digit, c :: cs => if isDigit c then [cs] else []
  | .endText, [] => [[]]
  | .endText, _ :: _ => []
  | .concat a b, s => (matchAll a s).flatMap (fun rest => matchAll b rest)
  | .plus r, s => plusIter (fun t => matchAll r t) s.length s

/-- The preferred match of `re` starting exactly at the start of `s`: the matched text. -/
def matchPrefix (re : Regexp) (s : List Char) : Option (List Char) :=
  match matchAll re s with
  | [] => none
  | rest :: _ => some (s.take (s.length - rest.length))

/-- The leftmost match of `re` in `s`: start positions are tried from left to right. -/
def findLeftmost (re : Regexp) : List Char → Option (List Char)
  | [] => matchPrefix re []
  | c :: cs =>
    match matchPrefix re (c :: cs) with
    | some m => some m
    | none => findLeftmost re cs

/-- Go `(*Regexp).FindString`: the text of the leftmost match, the empty string when there
is no match. -/
def FindString (re : Regexp) (s : String) : String :=
  match findLeftmost re s.data with
  | some m => String.mk m
  | none => ""

/-- The pattern of `regexp.MustCompile` in `createOrdinalEnvvar`: `\d+$`. -/
def ordinalPattern : Regexp := .concat (.plus .digit) .endText

/-! ## `createOrdinalEnvvar` -/

/-- The source's `createOrdinalEnvvar`: the returned error and the environment afterwards. -/
def createOrdinalEnvvar (fromName : String) (p : Proc) : Option String × Proc :=
  let reg := ordinalPattern
  let val := FindString reg (Getenv p fromName)
  Setenv statefulsetOrdinalEnvvar val p

/-- Every character of `s` is a decimal digit. -/
def allDigits (s : List Char) : Prop := ∀ c ∈ s, isDigit c = true

instance (s : List Char) : Decidable (allDigits s) := by
  unfold allDigits; infer_instance

/-! ## Command line (`kingpin`)

The flag library is not part of the command's source. Its parser is modelled for what
`main` declares: long flags given as `--name=value` or `--name value`, the separator `--`
and the built-in `--help`. The model leaves out the other built-in flags of the library
(`--help-long`, `--help-man`, the `--completion-` flags, the negation `--no-` of a boolean
flag) and the expansion of `@file` arguments. `Parse` goes through these steps: lexing,
defaults, the lexing error, a left-over argument, help, the values. `main` looks only at
whether `Parse` returned an error. -/

/-- The values of the flags `main` declares, named after the variables they are bound to. -/
structure Flags where
  cfgFile : String
  cfgSubstFile : String
  createStatefulsetOrdinalFrom : String
  logFormat : String
  reloadURL : String
  deriving DecidableEq, Repr

/-- One declared flag: its name, its `Default(...)` if any, and whether it was declared
with `URL()` rather than `String()`. -/
structure FlagClause where
  name : String
  dflt : Option String
  isURL : Bool

/-- The default of `--reload-url`. -/
def reloadURLDefault : String := "http://127.0.0.1:9090/-/reload"

/-- The flags declared on `app`, in the order of the source. -/
def appFlags : List FlagClause :=
  [ { name := "config-file", dflt := none, isURL := false },
    { name := "config-envsubst-file", dflt := none, isURL := false },
    { name := "statefulset-ordinal-from-envvar",
      dflt := some statefulsetOrdinalFromEnvvarDefault, isURL := false },
    { name := "log-format", dflt := some logFormatLogfmt, isURL := false },
    { name := "reload-url", dflt := some reloadURLDefault, isURL := true } ]

/-- The declared flag called `name`. -/
def findFlag (name : String) : Option FlagClause :=
  appFlags.find? (fun f => f.name == name)

/-- One parsed element of the command line. -/
inductive Element where
  | help
  | flag (name value : String)
  deriving DecidableEq, Repr

/-- The result of lexing: the elements read, the error that stopped it, and the first
argument that is not a flag. -/
structure ParseContext where
  elements : List Element
  err : Option String
  leftover : Option String

/-- A token that can be the value of a flag: it does not start with `-`. -/
def isArgToken (tok : String) : Bool :=
  match tok.data with
  | '-' :: _ => false
  | _ => true

/-- Put one element in front of the elements of `ctx`. -/
def ParseContext.push (e : Element) (ctx : ParseContext) : ParseContext :=
  { ctx with elements := e :: ctx.elements }

/-- Lexing of `os.Args[1:]`, left to right, until an error or an argument that is not a
flag. A value attached to `--help`, which takes none, is such an argument; after the
separator `--` every token is an argument. -/
def parseTokens : List String → ParseContext
  | [] => { elements := [], err := none, leftover := none }
  | tok :: rest =>
    match tok.data with
    | '-' :: '-' :: body =>
      if body = [] then
        { elements := [], err := none, leftover := rest.head? }
      else
        let name := String.mk (body.takeWhile (fun c => c != '='))
        let attached : Option String :=
          match body.dropWhile (fun c => c != '=') with
          | [] => none
          | _ :: v => some (String.mk v)
        if name = "help" then
          match attached with
          | some v => { elements := [Element.help], err := none, leftover := some v }
          | none => (parseTokens rest).push Element.help
        else
          match findFlag name with
          | none =>
            { elements := [], err := some ("unknown long flag '--" ++ name ++ "'"),
              leftover := none }
          | some _ =>
            match attached with
            | some v => (parseTokens rest).push (Element.flag name v)
            | none =>
              match rest with
              | [] =>
                { elements := [],
                  err := some ("expected argument for flag '--" ++ name ++ "'"),
                  leftover := none }
              | v :: rest2 =>
                if v = "--" then
                  match rest2 with
                  | [] =>
                    { elements := [],
                      err := some ("expected argument for flag '--" ++ name ++ "'"),
                      leftover := none }
                  | w :: rest3 =>
                    { elements := [Element.flag name w], err := none,
                      leftover := rest3.head? }
                else if isArgToken v then (parseTokens rest2).push (Element.flag name v)
                else
                  { elements := [],
                    err := some ("expected argument for flag '--" ++ name ++ "'"),
                    leftover := none }
    | ['-'] => { elements := [], err := none, leftover := some tok }
    | '-' :: c :: _ =>
      { elements := [], err := some ("unknown short flag '-" ++ String.mk [c] ++ "'"),
        leftover := none }
    | _ => { elements := [], err := none, leftover := some tok }

/-- The flag `name` is among the elements. -/
def isSet (name : String) (elems : List Element) : Bool :=
  elems.any (fun e => match e with
    | Element.flag n _ => n == name
    | Element.help => false)

/-- Store `value` in the variable bound to the flag `name`. -/
def Flags.assign (f : Flags) (name value : String) : Flags :=
  if name = "config-file" then { f with cfgFile := value }
  else if name = "config-envsubst-file" then { f with cfgSubstFile := value }
  else if name = "statefulset-ordinal-from-envvar" then
    { f with createStatefulsetOrdinalFrom := value }
  else if name = "log-format" then { f with logFormat := value }
  else if name = "reload-url" then { f with reloadURL := value }
  else f

/-- The value of a flag is accepted: always for `String()`, when `url.Parse` accepts it
for `URL()`. -/
def acceptsValue (validURL : String → Bool) (name value : String) : Bool :=
  match findFlag name with
  | some fc => !fc.isURL || validURL value
  | none => false

/-- Defaults are given to the declared flags that the command line does not set. -/
def setDefaults (validURL : String → Bool) (elems : List Element) :
    List FlagClause → Flags → Except String Flags
  | [], f => .ok f
  | fc :: more, f =>
    match fc.dflt with
    | none => setDefaults validURL elems more f
    | some d =>
      if isSet fc.name elems then setDefaults validURL elems more f
      else if acceptsValue validURL fc.name d then
        setDefaults validURL elems more (f.assign fc.name d)
      else .error ("invalid default for flag '--" ++ fc.name ++ "'")

/-- The values on the command line are stored, in order; none of the declared flags can
be repeated. -/
def setValues (validURL : String → Bool) :
    List Element → List String → Flags → Except String Flags
  | [], _, f => .ok f
  | Element.help :: more, seen, f => setValues validURL more seen f
  | Element.flag name value :: more, seen, f =>
    if seen.contains name then .error ("flag '" ++ name ++ "' cannot be repeated")
    else if acceptsValue validURL name value then
      setValues validURL more (name :: seen) (f.assign name value)
    else .error ("invalid value for flag '--" ++ name ++ "'")

/-- What `app.Parse` does: it returns the flags, returns an error, or ends the process
itself after printing the usage. -/
inductive ParseResult where
  | ok (flags : Flags)
  | failed (err : String)
  | terminated (status : Nat)
  deriving DecidableEq, Repr

/-- The flags before parsing: the zero values of `String()` and `URL()`. -/
def Flags.zero : Flags :=
  { cfgFile := "", cfgSubstFile := "", createStatefulsetOrdinalFrom := "",
    logFormat := "", reloadURL := "" }

/-- The library's `app.Parse(os.Args[1:])` for the flags of `main`. -/
def Parse (validURL : String → Bool) (args : List String) : ParseResult :=
  let ctx := parseTokens args
  match setDefaults validURL ctx.elements appFlags Flags.zero with
  | .error e => .failed e
  | .ok withDefaults =>
    match ctx.err with
    | some e => .failed e
    | none =>
      match ctx.leftover with
      | some tok => .failed ("unexpected " ++ tok)
      | none =>
        if ctx.elements.contains Element.help then .terminated 0
        else
          match setValues validURL ctx.elements [] withDefaults with
          | .error e => .failed e
          | .ok flags => .ok flags

/-! ## `main` -/

/-- What reaches the process from outside while `g.Run()` is blocked on its one actor. -/
inductive Outside where
  /-- A request to shut down: a termination signal is delivered to the process. -/
  | shutdownSignal
  /-- The call `rel.Watch(ctx)` returns `err`. -/
  | watchReturns (err : Option String)
  deriving DecidableEq, Repr

/-- How the run of the process ends. -/
inductive Outcome where
  /-- The process ended by `os.Exit(status)`, or by the return from `main` for status 0. -/
  | exited (status : Nat)
  /-- Ended by a signal for which the program has no handler. -/
  | killedBySignal
  /-- Still blocked in `g.Run()`. -/
  | running
  deriving DecidableEq, Repr

/-- Everything `main` depends on. -/
structure Inputs where
  /-- The arguments `os.Args[1:]`. -/
  args : List String
  /-- The environment the process starts with. -/
  env : Env
  /-- The string `version.Version`. -/
  version : String
  /-- Whether `url.Parse` accepts a string. -/
  validURL : String → Bool
  /-- What happens while the run group is blocked, in order. -/
  outside : List Outside

/-- A run of `main`: the final process state and how the run ended. -/
structure Run where
  proc : Proc
  outcome : Outcome

/-- The lines `var g run.Group` to the end of `main`. The group has the one actor
`(rel.Watch(ctx), cancel())`: `g.Run()` starts `rel.Watch`, waits for it to return, then
calls the interrupt function `cancel()` and returns the error of `rel.Watch`. The source
registers no signal handler, so a termination signal ends the process by the default
action of the runtime, without any call from `main`. -/
def runGroup (flags : Flags) (p : Proc) (outside : List Outside) : Run :=
  let p := p.emit (Event.newReloader flags.reloadURL flags.cfgFile flags.cfgSubstFile [])
  let p := p.emit Event.watch
  match outside with
  | [] => { proc := p, outcome := Outcome.running }
  | Outside.shutdownSignal :: _ => { proc := p, outcome := Outcome.killedBySignal }
  | Outside.watchReturns err :: _ =>
    let p := p.emit (Event.watchReturned err)
    let p := p.emit Event.cancel
    match err with
    | some e => { proc := p.emit (Event.stderr e), outcome := Outcome.exited 1 }
    | none => { proc := p, outcome := Outcome.exited 0 }

/-- The logger `main` builds from `--log-format`. -/
def loggerFor (logFormat : String) : LogFormat :=
  if logFormat = logFormatJson then LogFormat.json else LogFormat.logfmt

/-- The part of `main` after the call of `createOrdinalEnvvar`, which returned `err`. -/
def mainAfterOrdinal (inp : Inputs) (flags : Flags) (err : Option String) (p : Proc) : Run :=
  let logger := loggerFor flags.logFormat
  let p :=
    match err with
    | some _ => p.emit (Event.log logger ("Failed setting " ++ statefulsetOrdinalEnvvar))
    | none => p
  let p := p.emit (Event.log logger
    ("Starting prometheus-config-reloader version '" ++ inp.version ++ "'."))
  runGroup flags p inp.outside

/-- The part of `main` after a successful `app.Parse`. The pointer
`createStatefulsetOrdinalFrom` comes from `String()` and is never nil. -/
def mainAfterParse (inp : Inputs) (flags : Flags) (p : Proc) : Run :=
  let r := createOrdinalEnvvar flags.createStatefulsetOrdinalFrom p
  mainAfterOrdinal inp flags r.1 r.2

/-- The source's `main`. -/
def main (inp : Inputs) : Run :=
  let p : Proc := { env := inp.env, trace := [] }
  match Parse inp.validURL inp.args with
  | .failed e => { proc := p.emit (Event.stderr e), outcome := Outcome.exited 2 }
  | .terminated status => { proc := p.emit Event.usage, outcome := Outcome.exited status }
  | .ok flags => mainAfterParse inp flags p

/-- The inputs of a run with the given arguments and environment in which every URL is
accepted and `rel.Watch` returns `watch`. -/
def Inputs.simple (args : List String) (env : Env) (watch : Option String) : Inputs :=
  { args := args, env := env, version := "0.0.0", validURL := fun _ => true,
    outside := [Outside.watchReturns watch] }

/-- The value has no trailing digits: its last character, if there is one, is not a
digit. -/
def noTrailingDigits (s : String) : Prop :=
  ∀ c, s.data.getLast? = some c → isDigit c = false

/-! ## The variable substituter

The substitution that the reloader applies to the config file lives in the package
`reloader`, outside the command's source. The spec writes a reference `${VAR}` or `$VAR`;
the reloader package that `main` constructs writes it `$(VAR)`. Which of the three forms
are recognised is a parameter of the model, and the results hold for every choice. -/

/-- The forms of a reference that the substituter recognises. -/
structure RefForms where
  /-- The form `$(VAR)`. -/
  paren : Bool
  /-- The form `${VAR}`. -/
  brace : Bool
  /-- The form `$VAR`. -/
  bare : Bool
  deriving DecidableEq, Repr

/-- The one form of the reloader package: `$(VAR)`. -/
def RefForms.reloader : RefForms := { paren := true, brace := false, bare := false }

/-- The two forms in the words of the spec: `${VAR}` and `$VAR`. -/
def RefForms.spec : RefForms := { paren := false, brace := true, bare := true }

/-- A piece of a template: one character of plain text, or a reference to a variable. -/
inductive Token where
  | lit (c : Char)
  | ref (name : String)
  deriving DecidableEq, Repr

/-- The characters of a variable name: letters, digits and the underscore. -/
def isNameChar (c : Char) : Bool := c.isAlphanum || c == '_'

/-- A name closed by `close` at the start of `body`, which follows a `$` and an opening
bracket: the name, which is not empty, and the length of the whole reference. -/
def matchDelimited (close : Char) (body : List Char) : Option (String × Nat) :=
  match body.dropWhile isNameChar with
  | [] => none
  | c :: _ =>
    if c = close ∧ body.takeWhile isNameChar ≠ [] then
      some (String.mk (body.takeWhile isNameChar), (body.takeWhile isNameChar).length + 3)
    else none

/-- A reference at the very start of the text, in one of the recognised forms: its name
and its length. -/
def matchRef (forms : RefForms) : List Char → Option (String × Nat)
  | '$' :: '(' :: body => if forms.paren then matchDelimited ')' body else none
  | '$' :: '{' :: body => if forms.brace then matchDelimited '}' body else none
  | '$' :: c :: cs =>
    if forms.bare ∧ isNameChar c = true then
      some (String.mk ((c :: cs).takeWhile isNameChar),
        ((c :: cs).takeWhile isNameChar).length + 1)
    else none
  | _ => none

/-- The characters `cs` as plain text. -/
def lits (cs : List Char) : List Token := cs.map Token.lit

/-- Modelled from the spec: the recognition of references by the Variable Substituter
(the scanner of package `reloader` is missing from the sources). One pass over the
template, left to right: where a reference starts it is taken whole, and every other
character, also a `$` of unknown syntax, is kept as plain text. The first argument counts
the characters of the current reference that are still to be skipped. -/
def scan (forms : RefForms) : Nat → List Char → List Token
  | _, [] => []
  | skip + 1, _ :: cs => scan forms skip cs
  | 0, c :: cs =>
    match matchRef forms (c :: cs) with
    | some (name, len) => Token.ref name :: scan forms (len - 1) cs
    | none => Token.lit c :: scan forms 0 cs

/-- The pieces of a template. -/
def tokenize (forms : RefForms) (template : List Char) : List Token := scan forms 0 template

/-- Modelled from the spec: the replacement step of the Variable Substituter (package
`reloader` is missing from the sources). Each reference is replaced by the value of its
variable, which is not scanned again; the first reference to a variable that is not set
fails the render with `MissingVariable`, naming it. -/
def expand (env : Env) : List Token → Except String (List Char)
  | [] => .ok []
  | Token.lit c :: more =>
    match expand env more with
    | .ok out => .ok (c :: out)
    | .error e => .error e
  | Token.ref name :: more =>
    match env name with
    | none => .error ("MissingVariable: " ++ name)
    | some v =>
      match expand env more with
      | .ok out => .ok (v.data ++ out)
      | .error e => .error e

/-- Modelled from the spec: `render(T, E)` of the Variable Substituter, which package
`reloader` (missing from the sources) applies to the config file: the rendered text, or
the `MissingVariable` error. -/
def render (forms : RefForms) (template : List Char) (env : Env) :
    Except String (List Char) :=
  expand env (tokenize forms template)

/-- The piece is plain text or a reference to a variable that is set in `env`. -/
def Token.resolvedIn (env : Env) : Token → Bool
  | Token.lit _ => true
  | Token.ref name => (env name).isSome

/-- Every reference of the template is resolvable in `env`. -/
def resolvable (forms : RefForms) (template : List Char) (env : Env) : Prop :=
  ∀ t ∈ tokenize forms template, t.resolvedIn env = true

instance (forms : RefForms) (template : List Char) (env : Env) :
    Decidable (resolvable forms template env) := by
  unfold resolvable; infer_instance

/-- The piece is a reference. -/
def Token.isRef : Token → Bool
  | Token.lit _ => false
  | Token.ref _ => true

/-- The text contains no reference syntax. -/
def noReferences (forms : RefForms) (text : List Char) : Prop :=
  ∀ t ∈ tokenize forms text, t.isRef = false

instance (forms : RefForms) (text : List Char) : Decidable (noReferences forms text) := by
  unfold noReferences; infer_instance

/-- The piece is plain text or a reference to a variable whose value, if it is set in
`env`, holds no `$`. -/
def Token.plainIn (env : Env) : Token → Bool
  | Token.lit _ => true
  | Token.ref name =>
    match env name with
    | some v => !v.data.contains '$'
    | none => true

/-- The values that `env` gives to the variables referenced in the template hold no `$`. -/
def plainValues (forms : RefForms) (template : List Char) (env : Env) : Prop :=
  ∀ t ∈ tokenize forms template, t.plainIn env = true

instance (forms : RefForms) (template : List Char) (env : Env) :
    Decidable (plainValues forms template env) := by
  unfold plainValues; infer_instance

/-- Every `$` of the template begins a reference. -/
def noStrayDollar (forms : RefForms) (template : List Char) : Prop :=
  Token.lit '$' ∉ tokenize forms template

instance (forms : RefForms) (template : List Char) :
    Decidable (noStrayDollar forms template) := by
  unfold noStrayDollar; infer_instance

deriving instance DecidableEq for Except

/-- An environment given by a list of bindings, the first binding of a name winning. -/
def Env.ofList (bindings : List (String × String)) : Env :=
  fun k => (bindings.find? (fun b => b.1 == k)).map (fun b => b.2)


/-! ## The pattern `\d+$` finds the longest suffix of digits -/

theorem matchAll_endText (s : List Char) :
    matchAll .endText s = if s = [] then [[]] else [] := by
  cases s <;> simp [matchAll]

theorem matchAll_digit_cons (c : Char) (cs : List Char) :
    matchAll .digit (c :: cs) = if isDigit c then [cs] else [] := by
  simp [matchAll]

theorem nil_mem_plusIter_digit (s : List Char) :
    ∀ n, s.length ≤ n →
      ([] ∈ plusIter (fun t => matchAll .digit t) n s ↔ s ≠ [] ∧ allDigits s) := by
  induction s with
  | nil =>
    intro n _
    cases n <;> simp [plusIter, matchAll]
  | cons c cs ih =>
    intro n hn
    cases n with
    | zero => simp at hn
    | succ m =>
      have hm : cs.length ≤ m := by simpa using hn
      simp only [plusIter, matchAll_digit_cons]
      by_cases hc : isDigit c = true
      · simp only [hc, if_true, List.flatMap_cons, List.flatMap_nil, List.append_nil,
          List.mem_append, List.mem_singleton, ih m hm]
        constructor
        · rintro (⟨_, h⟩ | h)
          · exact ⟨by simp, by
              intro d hd
              rcases List.mem_cons.1 hd with rfl | hd
              · exact hc
              · exact h d hd⟩
          · subst h
            exact ⟨by simp, by
              intro d hd
              rcases List.mem_cons.1 hd with rfl | hd
              · exact hc
              · simp at hd⟩
        · rintro ⟨_, h⟩
          by_cases hcs : cs = []
          · exact Or.inr hcs.symm
          · exact Or.inl ⟨hcs, fun d hd => h d (List.mem_cons_of_mem _ hd)⟩
      · have hnil : (if isDigit c = true then [cs] else ([] : List (List Char))) = [] :=
          if_neg hc
        rw [hnil]
        simp only [List.flatMap_nil, List.not_mem_nil, false_iff]
        rintro ⟨_, h⟩
        exact hc (h c (List.mem_cons_self _ _))

theorem mem_flatMap_endText (l : List (List Char)) (x : List Char)
    (hx : x ∈ l.flatMap (fun rest => matchAll .endText rest)) : x = [] ∧ [] ∈ l := by
  rcases List.mem_flatMap.1 hx with ⟨r, hr, hxr⟩
  rw [matchAll_endText] at hxr
  by_cases h : r = []
  · subst h
    simp at hxr
    exact ⟨hxr, hr⟩
  · simp [h] at hxr

theorem flatMap_endText_ne_nil (l : List (List Char)) (h : [] ∈ l) :
    l.flatMap (fun rest => matchAll .endText rest) ≠ [] := by
  intro hnil
  have : ([] : List Char) ∈ l.flatMap (fun rest => matchAll .endText rest) :=
    List.mem_flatMap.2 ⟨[], h, by simp [matchAll]⟩
  rw [hnil] at this
  simp at this

/-- At a fixed start position `\d+$` matches exactly when the rest of the text is a
non-empty run of digits, and then it matches all of it. -/
theorem matchPrefix_ordinalPattern (s : List Char) :
    matchPrefix ordinalPattern s = if s ≠ [] ∧ allDigits s then some s else none := by
  have key := nil_mem_plusIter_digit s s.length (Nat.le_refl _)
  unfold matchPrefix
  have hdef : matchAll ordinalPattern s =
      (plusIter (fun t => matchAll .digit t) s.length s).flatMap
        (fun rest => matchAll .endText rest) := by
    simp [ordinalPattern, matchAll]
  rw [hdef]
  by_cases h : s ≠ [] ∧ allDigits s
  · rw [if_pos h]
    have hne := flatMap_endText_ne_nil _ (key.2 h)
    generalize hl : (plusIter (fun t => matchAll .digit t) s.length s).flatMap
        (fun rest => matchAll .endText rest) = l at hne
    cases l with
    | nil => exact absurd rfl hne
    | cons r rs =>
      have hr : r = [] :=
        (mem_flatMap_endText _ r (by rw [hl]; exact List.mem_cons_self _ _)).1
      subst hr
      simp
  · rw [if_neg h]
    generalize hl : (plusIter (fun t => matchAll .digit t) s.length s).flatMap
        (fun rest => matchAll .endText rest) = l
    cases l with
    | nil => rfl
    | cons r rs =>
      exact absurd (key.1 (mem_flatMap_endText _ r
        (by rw [hl]; exact List.mem_cons_self _ _)).2) h

/-- What `findLeftmost` returns for `\d+$`: a non-empty suffix of digits that every suffix of
digits is a suffix of, or nothing when the only suffix of digits is the empty one. -/
theorem findLeftmost_ordinalPattern (s : List Char) :
    match findLeftmost ordinalPattern s with
    | some v => v ≠ [] ∧ v <:+ s ∧ allDigits v ∧ ∀ t, t <:+ s → allDigits t → t <:+ v
    | none => ∀ t, t <:+ s → allDigits t → t = [] := by
  induction s with
  | nil =>
    simp [findLeftmost, matchPrefix_ordinalPattern]
  | cons c cs ih =>
    unfold findLeftmost
    rw [matchPrefix_ordinalPattern]
    by_cases h : (c :: cs) ≠ [] ∧ allDigits (c :: cs)
    · rw [if_pos h]
      exact ⟨h.1, List.suffix_refl _, h.2, fun t ht _ => ht⟩
    · rw [if_neg h]
      have hno : ∀ t, t <:+ c :: cs → allDigits t → t <:+ cs := by
        intro t ht hd
        rcases List.suffix_cons_iff.1 ht with rfl | ht
        · exact absurd ⟨by simp, hd⟩ h
        · exact ht
      cases hf : findLeftmost ordinalPattern cs with
      | none =>
        rw [hf] at ih
        exact fun t ht hd => ih t (hno t ht hd) hd
      | some v =>
        rw [hf] at ih
        obtain ⟨h1, h2, h3, h4⟩ := ih
        exact ⟨h1, h2.trans (List.suffix_cons _ _), h3, fun t ht hd => h4 t (hno t ht hd) hd⟩

/-- The value found by `\d+$` is the longest suffix of the text made of digits only. -/
theorem FindString_ordinalPattern (s : String) :
    (FindString ordinalPattern s).data <:+ s.data ∧
    allDigits (FindString ordinalPattern s).data ∧
    ∀ t, t <:+ s.data → allDigits t → t <:+ (FindString ordinalPattern s).data := by
  have h := findLeftmost_ordinalPattern s.data
  unfold FindString
  cases hf : findLeftmost ordinalPattern s.data with
  | none =>
    rw [hf] at h
    refine ⟨List.nil_suffix, by simp [allDigits], fun t ht hd => ?_⟩
    have ht0 : t = [] := h t ht hd
    subst ht0
    exact List.nil_suffix
  | some v =>
    rw [hf] at h
    exact ⟨h.2.1, h.2.2.1, h.2.2.2⟩

/-! ## `createOrdinalEnvvar` -/

theorem Setenv_ordinal (val : String) (p : Proc) (hval : allDigits val.data) :
    Setenv statefulsetOrdinalEnvvar val p =
      (none, { env := p.env.set statefulsetOrdinalEnvvar val,
               trace := p.trace ++ [Event.setenv statefulsetOrdinalEnvvar val] }) := by
  have hkey : (statefulsetOrdinalEnvvar.data.any (fun c => c == '=' || c == nul)) = false := by
    decide
  have hne : statefulsetOrdinalEnvvar ≠ "" := by decide
  have hv : (val.data.any (fun c => c == nul)) = false := by
    rw [Bool.eq_false_iff]
    intro h
    rcases List.any_eq_true.1 h with ⟨c, hc, hcn⟩
    have hc0 : c = nul := by simpa using hcn
    have hd := hval c hc
    rw [hc0] at hd
    exact absurd hd (by decide)
  unfold Setenv
  rw [if_neg hne, hkey, hv]
  rfl

/-- The result of `createOrdinalEnvvar`, in closed form. -/
theorem createOrdinalEnvvar_eq (fromName : String) (p : Proc) :
    createOrdinalEnvvar fromName p =
      (none,
       { env := p.env.set statefulsetOrdinalEnvvar
                  (FindString ordinalPattern (Getenv p fromName)),
         trace := p.trace ++ [Event.setenv statefulsetOrdinalEnvvar
                  (FindString ordinalPattern (Getenv p fromName))] }) := by
  unfold createOrdinalEnvvar
  exact Setenv_ordinal _ p (FindString_ordinalPattern _).2.1

theorem suffix_getLast? (t s : List Char) (h : t <:+ s) (ht : t ≠ []) :
    s.getLast? = t.getLast? := by
  obtain ⟨pre, rfl⟩ := h
  cases t with
  | nil => exact absurd rfl ht
  | cons a as =>
    rw [List.getLast?_append, List.getLast?_eq_getLast _ ht]
    rfl

/-- A value with no trailing digits has no match of `\d+$`. -/
theorem FindString_noTrailingDigits (s : String) (h : noTrailingDigits s) :
    FindString ordinalPattern s = "" := by
  obtain ⟨hsuf, hdig, _⟩ := FindString_ordinalPattern s
  by_cases hv : (FindString ordinalPattern s).data = []
  · exact String.ext hv
  · exfalso
    have hlast := suffix_getLast? _ _ hsuf hv
    obtain ⟨c, hc⟩ : ∃ c, (FindString ordinalPattern s).data.getLast? = some c := by
      cases hl : (FindString ordinalPattern s).data.getLast? with
      | none => exact absurd (List.getLast?_eq_none_iff.1 hl) hv
      | some c => exact ⟨c, rfl⟩
    have hnd := h c (hlast.trans hc)
    have hcd := hdig c (List.mem_of_getLast?_eq_some hc)
    rw [hnd] at hcd
    exact absurd hcd (by decide)

/-- C1: after `createOrdinalEnvvar fromName` the variable `STATEFULSET_ORDINAL_NUMBER`
holds the longest suffix of the value of `fromName` (the empty string when unset) that is
made of decimal digits only: it is a suffix of the value, all its characters are digits,
and every suffix of the value made of digits is a suffix of it. So the value `myapp-3`
gives `3`, and a value that is unset, or `myapp`, or any value with no trailing digits,
gives the empty string. -/
theorem createOrdinalEnvvar_sets_trailing_digits (fromName : String) (p : Proc) :
    ∃ v : String,
      (createOrdinalEnvvar fromName p).2.env "STATEFULSET_ORDINAL_NUMBER" = some v ∧
      v.data <:+ (Getenv p fromName).data ∧
      allDigits v.data ∧
      (∀ t, t <:+ (Getenv p fromName).data → allDigits t → t <:+ v.data) ∧
      (Getenv p fromName = "myapp-3" → v = "3") ∧
      (Getenv p fromName = "myapp" → v = "") ∧
      (p.env fromName = none → v = "") ∧
      (noTrailingDigits (Getenv p fromName) → v = "") := by
  refine ⟨FindString ordinalPattern (Getenv p fromName), ?_, ?_, ?_, ?_, ?_, ?_, ?_, ?_⟩
  · rw [createOrdinalEnvvar_eq]
    simp [Env.set, statefulsetOrdinalEnvvar]
  · exact (FindString_ordinalPattern _).1
  · exact (FindString_ordinalPattern _).2.1
  · exact (FindString_ordinalPattern _).2.2
  · intro h
    rw [h]
    decide
  · intro h
    rw [h]
    decide
  · intro h
    have hg : Getenv p fromName = "" := by
      unfold Getenv
      split
      · rfl
      · rw [h]; rfl
    rw [hg]
    decide
  · exact FindString_noTrailingDigits _

/-- The instance of C1 for `POD_NAME=myapp-3`. -/
theorem createOrdinalEnvvar_sets_trailing_digits_witness :
    (createOrdinalEnvvar "POD_NAME"
        { env := Env.ofList [("POD_NAME", "myapp-3")], trace := [] }).2.env
      "STATEFULSET_ORDINAL_NUMBER" = some "3" := by
  obtain ⟨v, h1, _, _, _, h5, _⟩ :=
    createOrdinalEnvvar_sets_trailing_digits "POD_NAME"
      { env := Env.ofList [("POD_NAME", "myapp-3")], trace := [] }
  rw [h1, h5 (by decide)]

/-- C10: `createOrdinalEnvvar` changes only `STATEFULSET_ORDINAL_NUMBER`: every other
variable, `fromName` included when it is another name, has the value it had before; and
`STATEFULSET_ORDINAL_NUMBER` is bound afterwards to the value found in `fromName`,
whatever it held before, which is the empty string when `fromName` is unset or has no
trailing digits. -/
theorem createOrdinalEnvvar_frame (fromName : String) (p : Proc) :
    (∀ k, k ≠ "STATEFULSET_ORDINAL_NUMBER" →
      (createOrdinalEnvvar fromName p).2.env k = p.env k) ∧
    (fromName ≠ "STATEFULSET_ORDINAL_NUMBER" →
      Getenv (createOrdinalEnvvar fromName p).2 fromName = Getenv p fromName) ∧
    (createOrdinalEnvvar fromName p).2.env "STATEFULSET_ORDINAL_NUMBER" =
      some (FindString ordinalPattern (Getenv p fromName)) ∧
    (p.env fromName = none →
      (createOrdinalEnvvar fromName p).2.env "STATEFULSET_ORDINAL_NUMBER" = some "") ∧
    (noTrailingDigits (Getenv p fromName) →
      (createOrdinalEnvvar fromName p).2.env "STATEFULSET_ORDINAL_NUMBER" = some "") := by
  have hset : (createOrdinalEnvvar fromName p).2.env "STATEFULSET_ORDINAL_NUMBER" =
      some (FindString ordinalPattern (Getenv p fromName)) := by
    rw [createOrdinalEnvvar_eq]
    simp [Env.set, statefulsetOrdinalEnvvar]
  have hframe : ∀ k, k ≠ "STATEFULSET_ORDINAL_NUMBER" →
      (createOrdinalEnvvar fromName p).2.env k = p.env k := by
    intro k hk
    rw [createOrdinalEnvvar_eq]
    simp [Env.set, statefulsetOrdinalEnvvar, hk]
  refine ⟨hframe, ?_, hset, ?_, ?_⟩
  · intro hne
    unfold Getenv
    rw [hframe fromName hne]
  · intro h
    have hg : Getenv p fromName = "" := by
      unfold Getenv
      split
      · rfl
      · rw [h]; rfl
    rw [hset, hg]
    decide
  · intro h
    rw [hset, FindString_noTrailingDigits _ h]

/-- The instance of C10 for an environment in which `STATEFULSET_ORDINAL_NUMBER` is
already set and `POD_NAME` has no trailing digits. -/
theorem createOrdinalEnvvar_frame_witness :
    (createOrdinalEnvvar "POD_NAME"
        { env := Env.ofList [("POD_NAME", "myapp"), ("STATEFULSET_ORDINAL_NUMBER", "7")],
          trace := [] }).2.env "POD_NAME" = some "myapp" ∧
    (createOrdinalEnvvar "POD_NAME"
        { env := Env.ofList [("POD_NAME", "myapp"), ("STATEFULSET_ORDINAL_NUMBER", "7")],
          trace := [] }).2.env "STATEFULSET_ORDINAL_NUMBER" = some "" := by
  have h := createOrdinalEnvvar_frame "POD_NAME"
    { env := Env.ofList [("POD_NAME", "myapp"), ("STATEFULSET_ORDINAL_NUMBER", "7")],
      trace := [] }
  refine ⟨?_, ?_⟩
  · rw [h.1 "POD_NAME" (by decide)]
    decide
  · rw [h.2.2.1]
    decide

/-! ## `main` -/

/-- The line that `main` logs before it builds the run group. -/
theorem startMsg_ne_failed (version : String) :
    "Starting prometheus-config-reloader version '" ++ version ++ "'." ≠
      "Failed setting " ++ statefulsetOrdinalEnvvar := by
  intro h
  have hd := congrArg String.data h
  simp only [String.data_append] at hd
  have hh := congrArg List.head? hd
  simp [statefulsetOrdinalEnvvar] at hh

/-- After a successful parse `main` is the run group started in a process state with the
ordinal written and the start line logged. -/
theorem main_of_ok (inp : Inputs) (flags : Flags)
    (h : Parse inp.validURL inp.args = .ok flags) :
    main inp =
      runGroup flags
        { env := inp.env.set statefulsetOrdinalEnvvar
            (FindString ordinalPattern
              (Getenv { env := inp.env, trace := [] } flags.createStatefulsetOrdinalFrom)),
          trace :=
            [Event.setenv statefulsetOrdinalEnvvar
              (FindString ordinalPattern
                (Getenv { env := inp.env, trace := [] } flags.createStatefulsetOrdinalFrom)),
             Event.log (loggerFor flags.logFormat)
              ("Starting prometheus-config-reloader version '" ++ inp.version ++ "'.")] }
        inp.outside := by
  unfold main
  rw [h]
  simp only [mainAfterParse, createOrdinalEnvvar_eq, mainAfterOrdinal, Proc.emit,
    List.nil_append, List.cons_append]

theorem main_of_failed (inp : Inputs) (e : String)
    (h : Parse inp.validURL inp.args = .failed e) :
    main inp = { proc := { env := inp.env, trace := [Event.stderr e] },
                 outcome := Outcome.exited 2 } := by
  unfold main
  rw [h]
  rfl

theorem Parse_terminated (validURL : String → Bool) (args : List String) (status : Nat)
    (h : Parse validURL args = .terminated status) : status = 0 := by
  unfold Parse at h
  dsimp only at h
  split at h
  · cases h
  · split at h
    · cases h
    · split at h
      · cases h
      · split at h
        · cases h; rfl
        · split at h <;> cases h

theorem main_of_terminated (inp : Inputs) (status : Nat)
    (h : Parse inp.validURL inp.args = .terminated status) :
    main inp = { proc := { env := inp.env, trace := [Event.usage] },
                 outcome := Outcome.exited 0 } := by
  have h0 := Parse_terminated _ _ _ h
  subst h0
  unfold main
  rw [h]
  rfl

/-- The effects of the run group, for each thing that can happen first from outside. -/
theorem runGroup_trace (flags : Flags) (p : Proc) (outside : List Outside) :
    (runGroup flags p outside).proc.env = p.env ∧
    ∃ tail, (runGroup flags p outside).proc.trace =
        p.trace ++ Event.newReloader flags.reloadURL flags.cfgFile flags.cfgSubstFile [] ::
          Event.watch :: tail ∧
      (∀ e ∈ tail, e = Event.cancel ∨ (∃ err, e = Event.watchReturned err) ∨
        ∃ line, e = Event.stderr line) ∧
      (Event.cancel ∈ tail ↔ ∃ err rest, outside = Outside.watchReturns err :: rest) := by
  rcases outside with _ | ⟨_ | err, rest⟩
  · exact ⟨rfl, [], by simp [runGroup, Proc.emit], by simp, by simp⟩
  · exact ⟨rfl, [], by simp [runGroup, Proc.emit], by simp, by simp⟩
  · cases err with
    | none =>
      exact ⟨rfl, [Event.watchReturned none, Event.cancel], by simp [runGroup, Proc.emit],
        by simp, by simp⟩
    | some e =>
      exact ⟨rfl, [Event.watchReturned (some e), Event.cancel, Event.stderr e],
        by simp [runGroup, Proc.emit], by simp, by simp⟩

theorem runGroup_outcome (flags : Flags) (p : Proc) (outside : List Outside) :
    (runGroup flags p outside).outcome =
      match outside with
      | [] => Outcome.running
      | Outside.shutdownSignal :: _ => Outcome.killedBySignal
      | Outside.watchReturns (some _) :: _ => Outcome.exited 1
      | Outside.watchReturns none :: _ => Outcome.exited 0 := by
  rcases outside with _ | ⟨_ | err, rest⟩
  · rfl
  · rfl
  · cases err <;> rfl

/-- Every line that `main` logs is the start line. -/
theorem main_logs (inp : Inputs) (format : LogFormat) (msg : String)
    (h : Event.log format msg ∈ (main inp).proc.trace) :
    msg = "Starting prometheus-config-reloader version '" ++ inp.version ++ "'." := by
  cases hp : Parse inp.validURL inp.args with
  | failed e =>
    rw [main_of_failed inp e hp] at h
    simp at h
  | terminated status =>
    rw [main_of_terminated inp status hp] at h
    simp at h
  | ok flags =>
    rw [main_of_ok inp flags hp] at h
    obtain ⟨_, tail, htr, htail, _⟩ := runGroup_trace flags
      { env := inp.env.set statefulsetOrdinalEnvvar
            (FindString ordinalPattern
              (Getenv { env := inp.env, trace := [] } flags.createStatefulsetOrdinalFrom)),
          trace :=
            [Event.setenv statefulsetOrdinalEnvvar
              (FindString ordinalPattern
                (Getenv { env := inp.env, trace := [] } flags.createStatefulsetOrdinalFrom)),
             Event.log (loggerFor flags.logFormat)
              ("Starting prometheus-config-reloader version '" ++ inp.version ++ "'.")] }
      inp.outside
    rw [htr] at h
    simp only [List.cons_append, List.nil_append, List.mem_cons, Event.log.injEq,
      false_or, reduceCtorEq] at h
    rcases h with ⟨_, h⟩ | h
    · exact h
    · rcases htail _ h with h1 | ⟨_, h1⟩ | ⟨_, h1⟩ <;> cases h1

/-- The trace of a run in which parsing succeeded: the write of the ordinal, the start
line, the construction of the reloader, the call of `rel.Watch`, and then only what
follows the return of `rel.Watch`. -/
theorem main_ok_trace (inp : Inputs) (flags : Flags)
    (h : Parse inp.validURL inp.args = .ok flags) :
    (main inp).proc.env = inp.env.set statefulsetOrdinalEnvvar
        (FindString ordinalPattern
          (Getenv { env := inp.env, trace := [] } flags.createStatefulsetOrdinalFrom)) ∧
    ∃ tail, (main inp).proc.trace =
        [Event.setenv statefulsetOrdinalEnvvar
          (FindString ordinalPattern
            (Getenv { env := inp.env, trace := [] } flags.createStatefulsetOrdinalFrom)),
         Event.log (loggerFor flags.logFormat)
          ("Starting prometheus-config-reloader version '" ++ inp.version ++ "'."),
         Event.newReloader flags.reloadURL flags.cfgFile flags.cfgSubstFile [],
         Event.watch] ++ tail ∧
      (∀ e ∈ tail, e = Event.cancel ∨ (∃ err, e = Event.watchReturned err) ∨
        ∃ line, e = Event.stderr line) ∧
      (Event.cancel ∈ tail ↔ ∃ err rest, inp.outside = Outside.watchReturns err :: rest) := by
  rw [main_of_ok inp flags h]
  obtain ⟨henv, tail, htr, htail, hcancel⟩ := runGroup_trace flags
    { env := inp.env.set statefulsetOrdinalEnvvar
          (FindString ordinalPattern
            (Getenv { env := inp.env, trace := [] } flags.createStatefulsetOrdinalFrom)),
        trace :=
          [Event.setenv statefulsetOrdinalEnvvar
            (FindString ordinalPattern
              (Getenv { env := inp.env, trace := [] } flags.createStatefulsetOrdinalFrom)),
           Event.log (loggerFor flags.logFormat)
            ("Starting prometheus-config-reloader version '" ++ inp.version ++ "'.")] }
    inp.outside
  exact ⟨henv, tail, by rw [htr]; rfl, htail, hcancel⟩

theorem main_ok_outcome (inp : Inputs) (flags : Flags)
    (h : Parse inp.validURL inp.args = .ok flags) :
    (main inp).outcome =
      match inp.outside with
      | [] => Outcome.running
      | Outside.shutdownSignal :: _ => Outcome.killedBySignal
      | Outside.watchReturns (some _) :: _ => Outcome.exited 1
      | Outside.watchReturns none :: _ => Outcome.exited 0 := by
  rw [main_of_ok inp flags h]
  exact runGroup_outcome _ _ _

/-- C2: the exit status of `main` is 2 exactly when `app.Parse` fails; it is 1 exactly
when parsing succeeded and `rel.Watch`, run in the run group, returns a non-nil error;
and it is 0 when parsing succeeded and `rel.Watch` returns nil. -/
theorem main_exit_status (inp : Inputs) :
    ((main inp).outcome = Outcome.exited 2 ↔
      ∃ e, Parse inp.validURL inp.args = .failed e) ∧
    ((main inp).outcome = Outcome.exited 1 ↔
      (∃ flags, Parse inp.validURL inp.args = .ok flags) ∧
        ∃ e rest, inp.outside = Outside.watchReturns (some e) :: rest) ∧
    ((∃ flags, Parse inp.validURL inp.args = .ok flags) →
      (∃ rest, inp.outside = Outside.watchReturns none :: rest) →
      (main inp).outcome = Outcome.exited 0) := by
  cases hp : Parse inp.validURL inp.args with
  | failed e =>
    rw [main_of_failed inp e hp]
    simp
  | terminated status =>
    rw [main_of_terminated inp status hp]
    simp
  | ok flags =>
    rw [main_ok_outcome inp flags hp]
    rcases inp.outside with _ | ⟨_ | err, rest⟩
    · simp
    · simp
    · cases err <;> simp

/-- The instances of C2: a flag that is not declared gives status 2, an error of
`rel.Watch` gives status 1, and its clean return gives status 0. -/
theorem main_exit_status_witness :
    (main (Inputs.simple ["--no-such-flag"] Env.empty none)).outcome = Outcome.exited 2 ∧
    (main (Inputs.simple [] Env.empty (some "watch failed"))).outcome = Outcome.exited 1 ∧
    (main (Inputs.simple [] Env.empty none)).outcome = Outcome.exited 0 := by
  refine ⟨?_, ?_, ?_⟩
  · exact (main_exit_status (Inputs.simple ["--no-such-flag"] Env.empty none)).1.2
      ⟨"unknown long flag '--no-such-flag'", by decide⟩
  · exact (main_exit_status (Inputs.simple [] Env.empty (some "watch failed"))).2.1.2
      ⟨⟨_, rfl⟩, "watch failed", [], rfl⟩
  · exact (main_exit_status (Inputs.simple [] Env.empty none)).2.2
      ⟨_, rfl⟩ ⟨[], rfl⟩

/-- C9: `createOrdinalEnvvar` never returns an error: the key
`STATEFULSET_ORDINAL_NUMBER` is not empty and holds neither `=` nor NUL, and the value
found consists of digits only, so it holds no NUL; these are the only conditions under
which `Setenv` fails. Hence `main` never logs `Failed setting
STATEFULSET_ORDINAL_NUMBER`. -/
theorem createOrdinalEnvvar_never_fails (fromName : String) (p : Proc) (inp : Inputs) :
    (createOrdinalEnvvar fromName p).1 = none ∧
    statefulsetOrdinalEnvvar ≠ "" ∧
    '=' ∉ statefulsetOrdinalEnvvar.data ∧
    nul ∉ statefulsetOrdinalEnvvar.data ∧
    allDigits (FindString ordinalPattern (Getenv p fromName)).data ∧
    nul ∉ (FindString ordinalPattern (Getenv p fromName)).data ∧
    ∀ format,
      Event.log format "Failed setting STATEFULSET_ORDINAL_NUMBER" ∉ (main inp).proc.trace := by
  have hd := (FindString_ordinalPattern (Getenv p fromName)).2.1
  refine ⟨by rw [createOrdinalEnvvar_eq], by decide, by decide, by decide, hd, ?_, ?_⟩
  · intro hmem
    exact absurd (hd nul hmem) (by decide)
  · intro format hmem
    exact startMsg_ne_failed inp.version (main_logs inp format _ hmem).symm

/-- C3 fails as stated: started with no flags in an environment where `POD_NAME` is not
set, `main` writes the empty ordinal, logs the start line and nothing else, and goes on to
`rel.Watch`: no warning about the ordinal is logged. -/
theorem no_warning_when_unset :
    Env.empty "POD_NAME" = none ∧
    (main { args := [], env := Env.empty, version := "0.0.0", validURL := fun _ => true,
            outside := [] }).proc.trace =
      [Event.setenv "STATEFULSET_ORDINAL_NUMBER" "",
       Event.log LogFormat.logfmt "Starting prometheus-config-reloader version '0.0.0'.",
       Event.newReloader "http://127.0.0.1:9090/-/reload" "" "" [],
       Event.watch] := by
  decide

/-- C3, amended: when parsing succeeds and the input variable is unset or has a value with
no trailing digits, `main` sets `STATEFULSET_ORDINAL_NUMBER` to the empty string, logs no
line other than the start line (so no warning about the ordinal), and continues: it
constructs the reloader and calls `rel.Watch`. -/
theorem no_trailing_digits_is_silent (inp : Inputs) (flags : Flags)
    (hparse : Parse inp.validURL inp.args = .ok flags)
    (hnone : inp.env flags.createStatefulsetOrdinalFrom = none ∨
      noTrailingDigits
        (Getenv { env := inp.env, trace := [] } flags.createStatefulsetOrdinalFrom)) :
    (main inp).proc.env "STATEFULSET_ORDINAL_NUMBER" = some "" ∧
    (∀ format msg, Event.log format msg ∈ (main inp).proc.trace →
      msg = "Starting prometheus-config-reloader version '" ++ inp.version ++ "'.") ∧
    Event.newReloader flags.reloadURL flags.cfgFile flags.cfgSubstFile [] ∈
      (main inp).proc.trace ∧
    Event.watch ∈ (main inp).proc.trace := by
  obtain ⟨henv, tail, htr, _, _⟩ := main_ok_trace inp flags hparse
  have hval : FindString ordinalPattern
      (Getenv { env := inp.env, trace := [] } flags.createStatefulsetOrdinalFrom) = "" := by
    rcases hnone with h | h
    · have hg : Getenv { env := inp.env, trace := [] }
          flags.createStatefulsetOrdinalFrom = "" := by
        unfold Getenv
        split
        · rfl
        · show (inp.env flags.createStatefulsetOrdinalFrom).getD "" = ""
          rw [h]; rfl
      rw [hg]
      decide
    · exact FindString_noTrailingDigits _ h
  refine ⟨?_, fun format msg h => main_logs inp format msg h, ?_, ?_⟩
  · rw [henv, hval]
    simp [Env.set, statefulsetOrdinalEnvvar]
  · rw [htr]; simp
  · rw [htr]; simp

/-- The instance of the amended C3 for `POD_NAME=myapp`. -/
theorem no_trailing_digits_is_silent_witness :
    (main (Inputs.simple [] (Env.ofList [("POD_NAME", "myapp")]) none)).proc.env
        "STATEFULSET_ORDINAL_NUMBER" = some "" ∧
    Event.watch ∈
      (main (Inputs.simple [] (Env.ofList [("POD_NAME", "myapp")]) none)).proc.trace := by
  have h := no_trailing_digits_is_silent
    (Inputs.simple [] (Env.ofList [("POD_NAME", "myapp")]) none)
    { cfgFile := "", cfgSubstFile := "", createStatefulsetOrdinalFrom := "POD_NAME",
      logFormat := "logfmt", reloadURL := "http://127.0.0.1:9090/-/reload" }
    (by decide)
    (Or.inr (by
      intro c hc
      have hc2 : c = 'p' := by
        have : (some 'p' : Option Char) = some c := hc
        exact (Option.some.inj this).symm
      subst hc2
      decide))
  exact ⟨h.1, h.2.2.2⟩

/-- C4 fails as stated: with no `--config-file` at all, and with an empty one, parsing
succeeds with the empty source path and `main` constructs the reloader with it and calls
`rel.Watch`. -/
theorem empty_config_path_enters_loop :
    Parse (fun _ => true) [] =
      .ok { cfgFile := "", cfgSubstFile := "", createStatefulsetOrdinalFrom := "POD_NAME",
            logFormat := "logfmt", reloadURL := "http://127.0.0.1:9090/-/reload" } ∧
    Event.newReloader "http://127.0.0.1:9090/-/reload" "" "" [] ∈
      (main (Inputs.simple [] Env.empty none)).proc.trace ∧
    Event.watch ∈ (main (Inputs.simple [] Env.empty none)).proc.trace ∧
    Event.newReloader "http://127.0.0.1:9090/-/reload" "" "" [] ∈
      (main (Inputs.simple ["--config-file="] Env.empty none)).proc.trace ∧
    Event.watch ∈ (main (Inputs.simple ["--config-file="] Env.empty none)).proc.trace := by
  decide

/-- C4, amended: an argument list that `app.Parse` rejects is fatal before anything else
happens: `main` prints the error and exits with status 2, without writing the ordinal,
constructing the reloader or calling `rel.Watch`. The paths are not checked at startup:
whenever parsing succeeds, also with a missing or empty source path, `main` constructs the
reloader with the paths as given and calls `rel.Watch`. -/
theorem parse_failure_is_fatal (inp : Inputs) :
    (∀ e, Parse inp.validURL inp.args = .failed e →
      (main inp).proc.trace = [Event.stderr e] ∧
      (main inp).outcome = Outcome.exited 2 ∧
      (main inp).proc.env = inp.env) ∧
    (∀ flags, Parse inp.validURL inp.args = .ok flags →
      Event.newReloader flags.reloadURL flags.cfgFile flags.cfgSubstFile [] ∈
        (main inp).proc.trace ∧
      Event.watch ∈ (main inp).proc.trace) := by
  refine ⟨?_, ?_⟩
  · intro e he
    rw [main_of_failed inp e he]
    exact ⟨rfl, rfl, rfl⟩
  · intro flags hf
    obtain ⟨_, tail, htr, _, _⟩ := main_ok_trace inp flags hf
    rw [htr]
    simp

/-- The instance of the amended C4 for a flag that is not declared. -/
theorem parse_failure_is_fatal_witness :
    (main (Inputs.simple ["--config"] Env.empty none)).proc.trace =
        [Event.stderr "unknown long flag '--config'"] ∧
    (main (Inputs.simple ["--config"] Env.empty none)).outcome = Outcome.exited 2 := by
  have h := (parse_failure_is_fatal (Inputs.simple ["--config"] Env.empty none)).1
    "unknown long flag '--config'" (by decide)
  exact ⟨h.1, h.2.1⟩

/-- C5 fails as stated: when a termination signal arrives while `rel.Watch` is running,
`main` has called `rel.Watch` but never calls `cancel()`, `rel.Watch` does not return, and
the process does not exit with status 0: it is ended by the signal. -/
theorem signal_does_not_cancel :
    Event.watch ∈
      (main { args := [], env := Env.empty, version := "0.0.0", validURL := fun _ => true,
              outside := [Outside.shutdownSignal] }).proc.trace ∧
    Event.cancel ∉
      (main { args := [], env := Env.empty, version := "0.0.0", validURL := fun _ => true,
              outside := [Outside.shutdownSignal] }).proc.trace ∧
    (main { args := [], env := Env.empty, version := "0.0.0", validURL := fun _ => true,
            outside := [Outside.shutdownSignal] }).outcome = Outcome.killedBySignal := by
  decide

/-- C5, amended: `main` installs no handler for a shutdown requested from outside. In a run
in which parsing succeeds, `cancel()` is called exactly when `rel.Watch` has returned by
itself, as the interrupt function of the run group; a signal that arrives while
`rel.Watch` is running ends the process with no call of `cancel()`; and when `rel.Watch`
returns nil, the process exits with status 0 after `cancel()`. -/
theorem cancel_only_after_watch_returns (inp : Inputs) (flags : Flags)
    (hparse : Parse inp.validURL inp.args = .ok flags) :
    (Event.cancel ∈ (main inp).proc.trace ↔
      ∃ err rest, inp.outside = Outside.watchReturns err :: rest) ∧
    (∀ rest, inp.outside = Outside.shutdownSignal :: rest →
      Event.cancel ∉ (main inp).proc.trace ∧ (main inp).outcome = Outcome.killedBySignal) ∧
    (∀ rest, inp.outside = Outside.watchReturns none :: rest →
      (main inp).outcome = Outcome.exited 0 ∧
      ∃ before, (main inp).proc.trace =
        before ++ [Event.watch, Event.watchReturned none, Event.cancel]) := by
  have hout := main_ok_outcome inp flags hparse
  obtain ⟨_, tail, htr, htail, hcancel⟩ := main_ok_trace inp flags hparse
  have hiff : Event.cancel ∈ (main inp).proc.trace ↔
      ∃ err rest, inp.outside = Outside.watchReturns err :: rest := by
    rw [htr, ← hcancel]
    simp
  refine ⟨hiff, ?_, ?_⟩
  · intro rest hrest
    refine ⟨?_, ?_⟩
    · rw [hiff, hrest]
      simp
    · rw [hout, hrest]
  · intro rest hrest
    refine ⟨by rw [hout, hrest], ?_⟩
    rw [main_of_ok inp flags hparse, hrest]
    refine ⟨[Event.setenv statefulsetOrdinalEnvvar
        (FindString ordinalPattern
          (Getenv { env := inp.env, trace := [] } flags.createStatefulsetOrdinalFrom)),
      Event.log (loggerFor flags.logFormat)
        ("Starting prometheus-config-reloader version '" ++ inp.version ++ "'."),
      Event.newReloader flags.reloadURL flags.cfgFile flags.cfgSubstFile []], ?_⟩
    simp [runGroup, Proc.emit]

/-- The instance of the amended C5 for a run in which `rel.Watch` returns nil. -/
theorem cancel_only_after_watch_returns_witness :
    Event.cancel ∈ (main (Inputs.simple [] Env.empty none)).proc.trace ∧
    (main (Inputs.simple [] Env.empty none)).outcome = Outcome.exited 0 := by
  have h := cancel_only_after_watch_returns (Inputs.simple [] Env.empty none)
    { cfgFile := "", cfgSubstFile := "", createStatefulsetOrdinalFrom := "POD_NAME",
      logFormat := "logfmt", reloadURL := "http://127.0.0.1:9090/-/reload" }
    (by decide)
  exact ⟨h.1.2 ⟨none, [], rfl⟩, (h.2.2 [] rfl).1⟩

/-- With no arguments every declared flag takes its default. -/
theorem Parse_nil (validURL : String → Bool)
    (hurl : validURL "http://127.0.0.1:9090/-/reload" = true) :
    Parse validURL [] =
      .ok { cfgFile := "", cfgSubstFile := "", createStatefulsetOrdinalFrom := "POD_NAME",
            logFormat := "logfmt", reloadURL := "http://127.0.0.1:9090/-/reload" } := by
  simp [Parse, parseTokens, setDefaults, setValues, appFlags, isSet, acceptsValue, findFlag,
    Flags.assign, Flags.zero, reloadURLDefault, statefulsetOrdinalFromEnvvarDefault,
    logFormatLogfmt, hurl]

/-- C6: started with no flags (the default reload URL being one that `url.Parse`
accepts), `main` continues with the reload URL `reloadURLDefault`, written out below, the
input variable name `POD_NAME` and the log format `logfmt`, which selects the logfmt logger; and
for every argument list, every write that `main` makes to the environment is to the
variable `STATEFULSET_ORDINAL_NUMBER`. -/
theorem main_defaults (inp : Inputs) :
    (inp.args = [] → inp.validURL "http://127.0.0.1:9090/-/reload" = true →
      ∃ flags, Parse inp.validURL inp.args = .ok flags ∧
        main inp = mainAfterParse inp flags { env := inp.env, trace := [] } ∧
        flags.reloadURL = "http://127.0.0.1:9090/-/reload" ∧
        flags.createStatefulsetOrdinalFrom = "POD_NAME" ∧
        flags.logFormat = "logfmt" ∧
        loggerFor flags.logFormat = LogFormat.logfmt) ∧
    (∀ k v, Event.setenv k v ∈ (main inp).proc.trace → k = "STATEFULSET_ORDINAL_NUMBER") := by
  refine ⟨?_, ?_⟩
  · intro hargs hurl
    have hp := Parse_nil inp.validURL hurl
    rw [← hargs] at hp
    refine ⟨_, hp, ?_, rfl, rfl, rfl, by decide⟩
    unfold main
    rw [hp]
  · intro k v hmem
    cases hp : Parse inp.validURL inp.args with
    | failed e =>
      rw [main_of_failed inp e hp] at hmem
      simp at hmem
    | terminated status =>
      rw [main_of_terminated inp status hp] at hmem
      simp at hmem
    | ok flags =>
      obtain ⟨_, tail, htr, htail, _⟩ := main_ok_trace inp flags hp
      rw [htr] at hmem
      simp only [List.cons_append, List.nil_append, List.mem_cons, Event.setenv.injEq,
        false_or, reduceCtorEq] at hmem
      rcases hmem with ⟨hk, _⟩ | hmem
      · exact hk
      · rcases htail _ hmem with h1 | ⟨_, h1⟩ | ⟨_, h1⟩ <;> cases h1

/-- The instance of C6 for a run with no flags in which every URL is accepted. -/
theorem main_defaults_witness :
    ∃ flags, Parse (fun _ => true) [] = .ok flags ∧
      flags.reloadURL = "http://127.0.0.1:9090/-/reload" ∧
      flags.createStatefulsetOrdinalFrom = "POD_NAME" ∧
      flags.logFormat = "logfmt" := by
  obtain ⟨flags, hp, _, h1, h2, h3, _⟩ :=
    (main_defaults (Inputs.simple [] Env.empty none)).1 rfl rfl
  exact ⟨flags, hp, h1, h2, h3⟩

/-- C8: on every run in which parsing succeeds, `STATEFULSET_ORDINAL_NUMBER` is written
exactly once, as the first effect of `main`: the construction of the reloader and the call
of `rel.Watch` come after it, no other write to the environment follows, and the
environment that `rel.Watch` runs in binds it to the derived ordinal. And whatever
`createOrdinalEnvvar` returns, `main` goes on to construct the reloader and call
`rel.Watch`. -/
theorem ordinal_written_once_before_watch (inp : Inputs) (flags : Flags)
    (hparse : Parse inp.validURL inp.args = .ok flags) :
    (∃ rest, (main inp).proc.trace =
        Event.setenv "STATEFULSET_ORDINAL_NUMBER"
          (FindString ordinalPattern
            (Getenv { env := inp.env, trace := [] } flags.createStatefulsetOrdinalFrom)) ::
          rest ∧
      (∀ k v, Event.setenv k v ∉ rest) ∧
      Event.newReloader flags.reloadURL flags.cfgFile flags.cfgSubstFile [] ∈ rest ∧
      Event.watch ∈ rest) ∧
    (main inp).proc.env "STATEFULSET_ORDINAL_NUMBER" =
      some (FindString ordinalPattern
        (Getenv { env := inp.env, trace := [] } flags.createStatefulsetOrdinalFrom)) ∧
    (∀ (err : Option String) (p : Proc),
      Event.newReloader flags.reloadURL flags.cfgFile flags.cfgSubstFile [] ∈
        (mainAfterOrdinal inp flags err p).proc.trace ∧
      Event.watch ∈ (mainAfterOrdinal inp flags err p).proc.trace) := by
  obtain ⟨henv, tail, htr, htail, _⟩ := main_ok_trace inp flags hparse
  refine ⟨⟨Event.log (loggerFor flags.logFormat)
        ("Starting prometheus-config-reloader version '" ++ inp.version ++ "'.") ::
      Event.newReloader flags.reloadURL flags.cfgFile flags.cfgSubstFile [] ::
      Event.watch :: tail, htr, ?_, by simp, by simp⟩, ?_, ?_⟩
  · intro k v hmem
    simp only [List.mem_cons, false_or, reduceCtorEq] at hmem
    rcases htail _ hmem with h1 | ⟨_, h1⟩ | ⟨_, h1⟩ <;> cases h1
  · rw [henv]
    simp [Env.set, statefulsetOrdinalEnvvar]
  · intro err p
    unfold mainAfterOrdinal
    obtain ⟨_, tail2, htr2, _, _⟩ := runGroup_trace flags
      ((match err with
        | some _ => p.emit (Event.log (loggerFor flags.logFormat)
            ("Failed setting " ++ statefulsetOrdinalEnvvar))
        | none => p).emit (Event.log (loggerFor flags.logFormat)
          ("Starting prometheus-config-reloader version '" ++ inp.version ++ "'.")))
      inp.outside
    dsimp only
    rw [htr2]
    simp

/-- The instance of C8 for `POD_NAME=myapp-3`: the environment of `rel.Watch` has the
ordinal `3`. -/
theorem ordinal_written_once_before_watch_witness :
    (main (Inputs.simple [] (Env.ofList [("POD_NAME", "myapp-3")]) none)).proc.env
      "STATEFULSET_ORDINAL_NUMBER" = some "3" := by
  have h := (ordinal_written_once_before_watch
    (Inputs.simple [] (Env.ofList [("POD_NAME", "myapp-3")]) none)
    { cfgFile := "", cfgSubstFile := "", createStatefulsetOrdinalFrom := "POD_NAME",
      logFormat := "logfmt", reloadURL := "http://127.0.0.1:9090/-/reload" }
    (by decide)).2.1
  rw [h]
  decide

/-! ## The variable substituter -/

theorem matchRef_of_ne_dollar (forms : RefForms) (c : Char) (cs : List Char)
    (hc : c ≠ '$') : matchRef forms (c :: cs) = none := by
  unfold matchRef
  split
  · rename_i heq
    exact absurd (List.cons.inj heq).1 hc
  · rename_i heq
    exact absurd (List.cons.inj heq).1 hc
  · rename_i heq
    exact absurd (List.cons.inj heq).1 hc
  · rfl

/-- A text in which the scan finds no reference is scanned as plain text, character by
character. -/
theorem scan_of_no_ref (forms : RefForms) (s : List Char)
    (h : ∀ t ∈ scan forms 0 s, t.isRef = false) : scan forms 0 s = lits s := by
  induction s with
  | nil => rfl
  | cons c cs ih =>
    cases hm : matchRef forms (c :: cs) with
    | some r =>
      have hmem : Token.ref r.1 ∈ scan forms 0 (c :: cs) := by
        simp only [scan, hm]
        exact List.mem_cons_self _ _
      exact absurd (h _ hmem) (by simp [Token.isRef])
    | none =>
      have hs : scan forms 0 (c :: cs) = Token.lit c :: scan forms 0 cs := by
        simp only [scan, hm]
      rw [hs] at h
      rw [hs, ih (fun t ht => h t (List.mem_cons_of_mem _ ht))]
      rfl

theorem scan_of_no_dollar (forms : RefForms) (s : List Char) (h : '$' ∉ s) :
    scan forms 0 s = lits s := by
  induction s with
  | nil => rfl
  | cons c cs ih =>
    have hc : c ≠ '$' := fun hc => h (by rw [hc]; exact List.mem_cons_self _ _)
    have hcs : '$' ∉ cs := fun hm => h (List.mem_cons_of_mem _ hm)
    simp only [scan, matchRef_of_ne_dollar forms c cs hc, ih hcs, lits, List.map_cons]

theorem expand_lits (env : Env) (s : List Char) : expand env (lits s) = .ok s := by
  induction s with
  | nil => rfl
  | cons c cs ih =>
    have ih2 : expand env (List.map Token.lit cs) = .ok cs := ih
    simp only [lits, List.map_cons, expand, ih2]

theorem isRef_lits (s : List Char) : ∀ t ∈ lits s, t.isRef = false := by
  intro t ht
  rcases List.mem_map.1 ht with ⟨c, _, rfl⟩
  rfl

/-- Tokens whose references are all set expand without error; the output holds no `$` when
neither the plain text nor the values put in hold one. -/
theorem expand_ok (env : Env) (toks : List Token)
    (hres : ∀ t ∈ toks, t.resolvedIn env = true) :
    ∃ out, expand env toks = .ok out ∧
      ((∀ t ∈ toks, t.plainIn env = true) →
        Token.lit '$' ∉ toks → '$' ∉ out) := by
  induction toks with
  | nil => exact ⟨[], rfl, fun _ _ => by simp⟩
  | cons t more ih =>
    obtain ⟨out, hout, hplain⟩ := ih (fun u hu => hres u (List.mem_cons_of_mem _ hu))
    cases t with
    | lit c =>
      refine ⟨c :: out, by simp only [expand, hout], ?_⟩
      intro hv hd hmem
      rcases List.mem_cons.1 hmem with hc | hc
      · exact hd (by rw [← hc]; exact List.mem_cons_self _ _)
      · exact hplain (fun u hu => hv u (List.mem_cons_of_mem _ hu))
          (fun hm => hd (List.mem_cons_of_mem _ hm)) hc
    | ref name =>
      have hset := hres (Token.ref name) (List.mem_cons_self _ _)
      cases hv : env name with
      | none =>
        simp [Token.resolvedIn, hv] at hset
      | some v =>
        refine ⟨v.data ++ out, by simp only [expand, hv, hout], ?_⟩
        intro hvals hd hmem
        rcases List.mem_append.1 hmem with hc | hc
        · have hp := hvals (Token.ref name) (List.mem_cons_self _ _)
          simp only [Token.plainIn, hv] at hp
          simp [hc] at hp
        · exact hplain (fun u hu => hvals u (List.mem_cons_of_mem _ hu))
            (fun hm => hd (List.mem_cons_of_mem _ hm)) hc

/-- C7 fails as stated. With the reference form `$(VAR)` of the reloader package: in the
environment `A=$(B)`, `B=x` the template `$(A)` has only resolvable references, but its
rendering `$(B)` still contains a reference, and rendering that again gives `x`, not
`$(B)`. The same happens with the form `${VAR}` of the spec, for `A=${B}` and the template
`${A}`. -/
theorem render_not_idempotent :
    resolvable RefForms.reloader ['$', '(', 'A', ')']
      (Env.ofList [("A", "$(B)"), ("B", "x")]) ∧
    render RefForms.reloader ['$', '(', 'A', ')'] (Env.ofList [("A", "$(B)"), ("B", "x")]) =
      .ok ['$', '(', 'B', ')'] ∧
    ¬ noReferences RefForms.reloader ['$', '(', 'B', ')'] ∧
    render RefForms.reloader ['$', '(', 'B', ')'] (Env.ofList [("A", "$(B)"), ("B", "x")]) =
      .ok ['x'] ∧
    resolvable RefForms.spec ['$', '{', 'A', '}'] (Env.ofList [("A", "${B}"), ("B", "x")]) ∧
    render RefForms.spec ['$', '{', 'A', '}'] (Env.ofList [("A", "${B}"), ("B", "x")]) =
      .ok ['$', '{', 'B', '}'] ∧
    ¬ noReferences RefForms.spec ['$', '{', 'B', '}'] ∧
    render RefForms.spec ['$', '{', 'B', '}'] (Env.ofList [("A", "${B}"), ("B", "x")]) =
      .ok ['x'] := by
  decide

/-- C7, amended: whichever reference forms are recognised, for every environment `E` and
template `T` whose references are all resolvable in `E`, `render(T, E)` succeeds; whenever
the output contains no reference syntax, rendering it again in `E` returns it unchanged;
and the output contains no reference syntax, in particular, when the values of the
variables that `T` references hold no `$` and every `$` of `T` begins a reference. -/
theorem render_resolvable (forms : RefForms) (template : List Char) (env : Env)
    (hres : resolvable forms template env) :
    ∃ out, render forms template env = .ok out ∧
      (noReferences forms out → render forms out env = .ok out) ∧
      (plainValues forms template env → noStrayDollar forms template →
        noReferences forms out) := by
  obtain ⟨out, hout, hplain⟩ := expand_ok env (tokenize forms template) hres
  refine ⟨out, hout, ?_, ?_⟩
  · intro hno
    have htok : tokenize forms out = lits out := scan_of_no_ref forms out hno
    unfold render
    rw [htok]
    exact expand_lits env out
  · intro hvals hstray
    have htok : tokenize forms out = lits out :=
      scan_of_no_dollar forms out (hplain hvals hstray)
    unfold noReferences
    rw [htok]
    exact isRef_lits out

/-- The instances of the amended C7 for the template `listen: $(PORT)` with `PORT=9090` in
the form of the reloader package, and for the template `price $`, which has a `$` and no
reference, in the forms of the spec. -/
theorem render_resolvable_witness :
    (render RefForms.reloader "listen: $(PORT)".data (Env.ofList [("PORT", "9090")]) =
        .ok "listen: 9090".data ∧
      render RefForms.reloader "listen: 9090".data (Env.ofList [("PORT", "9090")]) =
        .ok "listen: 9090".data) ∧
    (render RefForms.spec "price $".data Env.empty = .ok "price $".data) := by
  refine ⟨?_, ?_⟩
  · obtain ⟨out, hout, hidem, _⟩ :=
      render_resolvable RefForms.reloader "listen: $(PORT)".data
        (Env.ofList [("PORT", "9090")]) (by decide)
    have hval : out = "listen: 9090".data := Except.ok.inj (hout.symm.trans (by decide))
    subst hval
    exact ⟨hout, hidem (by decide)⟩
  · obtain ⟨out, hout, hidem, _⟩ :=
      render_resolvable RefForms.spec "price $".data Env.empty (by decide)
    have hval : out = "price $".data := Except.ok.inj (hout.symm.trans (by decide))
    subst hval
    exact hidem (by decide)

end ConfigReloader
